import Mathlib

set_option synthInstance.maxSize 512

/-!
Verification of the Delavan Lake fishing-reports pipeline
(`backend/scraper.py`, `backend/database.py`, `backend/processor.py`,
`backend/api.py`).

Python strings are embedded as `List Char` (a Python `str` is a sequence of
code points), SQLite REAL columns as `ℚ`, nullable columns as `Option`,
and the external dependencies (`hashlib.md5`, `json.loads`,
`datetime.fromisoformat`, the OpenAI client) as explicit function
parameters, so every theorem quantifies over their behaviour.
-/

namespace Scraper

/-- Embeds `generate_source_id` from `backend/scraper.py`:
`combined = f"{username}:{date_posted}:{content[:100]}"` followed by
`hashlib.md5(combined.encode()).hexdigest()`.  The md5 digest is an external
library call, passed in as the function `md5`. -/
def generate_source_id (md5 : List Char → List Char)
    (username date_posted content : List Char) : List Char :=
  md5 (username ++ ':' :: date_posted ++ ':' :: content.take 100)

/-- The ASCII whitespace characters stripped by Python's `str.strip()`
(the claims only ever involve ASCII input). -/
def isPyWs (c : Char) : Bool :=
  c = ' ' ∨ c = '\t' ∨ c = '\n' ∨ c = '\r' ∨ c = '\x0b' ∨ c = '\x0c'

/-- Embeds Python `str.strip()`: remove leading and trailing whitespace. -/
def pyStrip (l : List Char) : List Char :=
  ((l.dropWhile isPyWs).reverse.dropWhile isPyWs).reverse

/-- Numeric value of a decimal digit character. -/
def digitVal (c : Char) : Nat := c.toNat - 48

/-- Matches the regex piece `(\d{1,2})`.  The greedy two-digit attempt is
faithful to `re` backtracking here because in the scraper's regex every
`\d{1,2}` group is followed by a literal (`/` or `:`), so backing off to one
digit can never rescue a failed two-digit match. -/
def takeD12 : List Char → Option (Nat × List Char)
  | [] => none
  | [c] => if c.isDigit then some (digitVal c, []) else none
  | c1 :: c2 :: rest =>
    if c1.isDigit then
      if c2.isDigit then some (digitVal c1 * 10 + digitVal c2, rest)
      else some (digitVal c1, c2 :: rest)
    else none

/-- Matches the regex piece `(\d{2})`: exactly two digits. -/
def takeD2 : List Char → Option (Nat × List Char)
  | c1 :: c2 :: rest =>
    if c1.isDigit ∧ c2.isDigit then some (digitVal c1 * 10 + digitVal c2, rest)
    else none
  | _ => none

/-- Matches one literal character of the regex. -/
def expectChar (c : Char) : List Char → Option (List Char)
  | d :: rest => if d = c then some rest else none
  | [] => none

/-- Matches the regex piece `@?`. -/
def skipAt : List Char → List Char
  | '@' :: rest => rest
  | l => l

/-- Matches the regex piece `(AM|PM)?` under `re.IGNORECASE`
(`some false` = AM, `some true` = PM, `none` = group absent). -/
def readAmPm : List Char → Option Bool
  | c1 :: c2 :: _ =>
    if (c1 = 'A' ∨ c1 = 'a') ∧ (c2 = 'M' ∨ c2 = 'm') then some false
    else if (c1 = 'P' ∨ c1 = 'p') ∧ (c2 = 'M' ∨ c2 = 'm') then some true
    else none
  | [_] => none
  | [] => none

/-- Embeds `re.match(r"(\d{1,2})/(\d{1,2})/(\d{2})\s*@?\s*(\d{1,2}):(\d{2})\s*(AM|PM)?", s, re.IGNORECASE)`
from `parse_date` in `backend/scraper.py`.  `re.match` anchors at the start
only; trailing characters are ignored.  Returns the six captured groups
`(month, day, year, hour, minute, am/pm)`. -/
def matchDate (l : List Char) : Option (Nat × Nat × Nat × Nat × Nat × Option Bool) :=
  (takeD12 l).bind fun g1 =>
  (expectChar '/' g1.2).bind fun r2 =>
  (takeD12 r2).bind fun g2 =>
  (expectChar '/' g2.2).bind fun r4 =>
  (takeD2 r4).bind fun g3 =>
  (takeD12 ((skipAt (g3.2.dropWhile isPyWs)).dropWhile isPyWs)).bind fun g4 =>
  (expectChar ':' g4.2).bind fun r8 =>
  (takeD2 r8).bind fun g5 =>
  some (g1.1, g2.1, g3.1, g4.1, g5.1, readAmPm (g5.2.dropWhile isPyWs))

/-- Python `calendar` leap-year rule used by `datetime`. -/
def isLeap (y : Nat) : Bool := y % 4 = 0 ∧ (y % 100 ≠ 0 ∨ y % 400 = 0)

/-- Number of days in a month, as validated by `datetime.__init__`. -/
def daysInMonth (y m : Nat) : Nat :=
  if m = 2 then (if isLeap y then 29 else 28)
  else if m = 4 ∨ m = 6 ∨ m = 9 ∨ m = 11 then 30
  else 31

/-- The validity check performed by `datetime(year, month, day, hour, minute)`;
on failure the Python constructor raises `ValueError`. -/
def datetimeValid (y mo da ho mi : Nat) : Bool :=
  decide (1 ≤ y ∧ y ≤ 9999 ∧ 1 ≤ mo ∧ mo ≤ 12 ∧ 1 ≤ da ∧ da ≤ daysInMonth y mo
    ∧ ho ≤ 23 ∧ mi ≤ 59)

/-- One decimal digit as a character. -/
def digitChar (n : Nat) : Char :=
  if n = 0 then '0' else if n = 1 then '1' else if n = 2 then '2'
  else if n = 3 then '3' else if n = 4 then '4' else if n = 5 then '5'
  else if n = 6 then '6' else if n = 7 then '7' else if n = 8 then '8'
  else '9'

/-- Python `str(n)` for `n < 100`: one or two digits, no padding. -/
def natDigits (n : Nat) : List Char :=
  if n < 10 then [digitChar n] else [digitChar (n / 10), digitChar (n % 10)]

/-- Two zero-padded decimal digits (`%02d`). -/
def twoDigits (n : Nat) : List Char := [digitChar (n / 10), digitChar (n % 10)]

/-- Four zero-padded decimal digits (`%04d`). -/
def fourDigits (n : Nat) : List Char :=
  [digitChar (n / 1000), digitChar (n / 100 % 10), digitChar (n / 10 % 10),
   digitChar (n % 10)]

/-- `datetime(...).isoformat()` for a whole-minute datetime:
`YYYY-MM-DDTHH:MM:SS`. -/
def isoFormat (y mo da ho mi : Nat) : List Char :=
  fourDigits y ++ '-' :: twoDigits mo ++ '-' :: twoDigits da ++
    'T' :: twoDigits ho ++ ':' :: twoDigits mi ++ [':', '0', '0']

/-- Embeds `parse_date` from `backend/scraper.py`: empty input returns
`None`; otherwise the input is stripped, matched against the date regex,
and on a match with a valid calendar date the ISO timestamp is returned;
in every other case the *stripped* string is returned. -/
def parse_date (l : List Char) : Option (List Char) :=
  if l = [] then none
  else
    let s := pyStrip l
    match matchDate s with
    | some (mo, da, yr, ho, mi, ap) =>
      let year := if yr < 100 then 2000 + yr else yr
      let hour :=
        if ap = some true ∧ ho ≠ 12 then ho + 12
        else if ap = some false ∧ ho = 12 then 0
        else ho
      if datetimeValid year mo da hour mi then some (isoFormat year mo da hour mi)
      else some s
    | none => some s

/-- The 12-hour to 24-hour conversion as the spec states it:
12:xx AM maps to hour 0, 12:xx PM maps to hour 12, other PM hours get +12,
other AM hours are unchanged. -/
def to24Hour (ho : Nat) (pm : Bool) : Nat :=
  if pm then (if ho = 12 then 12 else ho + 12)
  else (if ho = 12 then 0 else ho)

/-- A date string exactly of the displayed form `M/D/YY @ H:MM AM|PM`. -/
def exactDateForm (mo da yr ho mi : Nat) (pm : Bool) : List Char :=
  natDigits mo ++ '/' :: (natDigits da ++ '/' :: (twoDigits yr ++
    (' ' :: '@' :: ' ' :: (natDigits ho ++ ':' :: (twoDigits mi ++
      ' ' :: (if pm then ['P', 'M'] else ['A', 'M']))))))

end Scraper

namespace FishDB

/-- A row of the `raw_reports` table (`backend/database.py`).  `source_id`
is always the md5 hex digest supplied by the scraper, hence non-null. -/
structure RawRow where
  id : Nat
  source_id : String
  date_posted : Option String
  username : Option String
  raw_content : Option String
  weather_badge : Option String
  location_tag : Option String
  image_urls : Option String
deriving Repr, DecidableEq

/-- A row of the `processed_reports` table (`backend/database.py`).
REAL columns are modelled as `ℚ`. -/
structure ProcRow where
  id : Nat
  raw_report_id : Nat
  date_posted : Option String
  month : Option Int
  season : Option String
  water_depth_feet : Option ℚ
  species_caught : Option String
  species_targeted : Option String
  bait_lure : Option String
  location : Option String
  water_temp_f : Option ℚ
  air_temp_f : Option ℚ
  weather_conditions : Option String
  ice_thickness_inches : Option ℚ
  notes : Option String
deriving Repr, DecidableEq

/-- The SQLite database file: the two tables plus the next AUTOINCREMENT
key of each. -/
structure DB where
  raw : List RawRow
  processed : List ProcRow
  nextRawId : Nat
  nextProcId : Nat
deriving Repr, DecidableEq

/-- The non-key column values passed to `insert_raw_report`. -/
structure RawFields where
  date_posted : Option String
  username : Option String
  raw_content : Option String
  weather_badge : Option String
  location_tag : Option String
  image_urls : Option String
deriving Repr, DecidableEq

/-- The non-key column values passed to `insert_processed_report`. -/
structure ProcFields where
  date_posted : Option String
  month : Option Int
  season : Option String
  water_depth_feet : Option ℚ
  species_caught : Option String
  species_targeted : Option String
  bait_lure : Option String
  location : Option String
  water_temp_f : Option ℚ
  air_temp_f : Option ℚ
  weather_conditions : Option String
  ice_thickness_inches : Option ℚ
  notes : Option String
deriving Repr, DecidableEq

/-- Embeds `insert_raw_report` from `backend/database.py`: a plain INSERT
into `raw_reports`; the UNIQUE constraint on `source_id` raises
`sqlite3.IntegrityError` on a duplicate, which the function catches and
turns into `None` with the table untouched.  Returns
`(cursor.lastrowid or None, new database state)`. -/
def insert_raw_report (db : DB) (source_id : String) (f : RawFields) :
    Option Nat × DB :=
  if db.raw.any (fun r => r.source_id = source_id) then (none, db)
  else
    (some db.nextRawId,
     { db with
        raw := db.raw ++ [⟨db.nextRawId, source_id, f.date_posted, f.username,
          f.raw_content, f.weather_badge, f.location_tag, f.image_urls⟩],
        nextRawId := db.nextRawId + 1 })

/-- Embeds `insert_processed_report` from `backend/database.py`: a plain
INSERT into `processed_reports`; the UNIQUE constraint on `raw_report_id`
raises `sqlite3.IntegrityError` on a duplicate, caught and turned into
`None` with the table untouched. -/
def insert_processed_report (db : DB) (raw_report_id : Nat) (f : ProcFields) :
    Option Nat × DB :=
  if db.processed.any (fun p => p.raw_report_id = raw_report_id) then (none, db)
  else
    (some db.nextProcId,
     { db with
        processed := db.processed ++ [⟨db.nextProcId, raw_report_id,
          f.date_posted, f.month, f.season, f.water_depth_feet,
          f.species_caught, f.species_targeted, f.bait_lure, f.location,
          f.water_temp_f, f.air_temp_f, f.weather_conditions,
          f.ice_thickness_inches, f.notes⟩],
        nextProcId := db.nextProcId + 1 })

/-- The raw reports with no processed counterpart, in `id` order:
the left-anti-join `WHERE p.id IS NULL ORDER BY r.id` inside
`get_unprocessed_reports`. -/
def isUnprocessed (db : DB) (r : RawRow) : Bool :=
  ¬ db.processed.any (fun p => p.raw_report_id = r.id)

def unprocessedRows (db : DB) : List RawRow :=
  List.insertionSort (fun a b => a.id ≤ b.id) (db.raw.filter (isUnprocessed db))

/-- Embeds `get_unprocessed_reports` from `backend/database.py`:
the anti-join limited to `limit` rows. -/
def get_unprocessed_reports (db : DB) (limit : Nat) : List RawRow :=
  (unprocessedRows db).take limit

/-- A row of the join `processed_reports p JOIN raw_reports r
ON p.raw_report_id = r.id` as returned by the month query. -/
structure JoinedRow where
  proc : ProcRow
  raw_content : Option String
  username : Option String
deriving Repr, DecidableEq

/-- The inner join used by `get_reports_by_month`. -/
def joinRows (db : DB) : List JoinedRow :=
  db.processed.flatMap fun p =>
    (db.raw.filter (fun r => r.id = p.raw_report_id)).map fun r =>
      ⟨p, r.raw_content, r.username⟩

/-- SQLite `ORDER BY p.date_posted DESC` (BINARY collation; NULLs sort
last under DESC because NULL is smaller than every value). -/
def dateDescLe (a b : JoinedRow) : Bool :=
  match a.proc.date_posted, b.proc.date_posted with
  | none, none => true
  | none, some _ => false
  | some _, none => true
  | some x, some y => decide (y ≤ x)

/-- Embeds `get_reports_by_month` from `backend/database.py`:
join, filter on `p.month = ?` (a NULL month never matches), order by
`date_posted` descending. -/
def get_reports_by_month (db : DB) (month : Int) : List JoinedRow :=
  List.insertionSort (fun a b => dateDescLe a b = true)
    ((joinRows db).filter (fun j => j.proc.month = some month))

end FishDB

namespace Processor

open FishDB

/-- The JSON object the extraction service must return
(`backend/processor.py`, `EXTRACTION_PROMPT`): 13 independently optional
fields. -/
structure Extracted where
  date_posted : Option String
  month : Option Int
  season : Option String
  water_depth_feet : Option ℚ
  species_caught : Option String
  species_targeted : Option String
  bait_lure : Option String
  location : Option String
  water_temp_f : Option ℚ
  air_temp_f : Option ℚ
  weather_conditions : Option String
  ice_thickness_inches : Option ℚ
  notes : Option String
deriving Repr, DecidableEq

/-- Python truthiness of an optional string (`None` and `""` are falsy). -/
def truthyStr : Option String → Bool
  | none => false
  | some s => s ≠ ""

/-- Python truthiness of an optional int (`None` and `0` are falsy). -/
def truthyInt : Option Int → Bool
  | none => false
  | some n => n ≠ 0

/-- Python truthiness of an optional nonnegative int (`None` and `0` falsy). -/
def truthyNat : Option Nat → Bool
  | none => false
  | some n => n ≠ 0

/-- What one call to the OpenAI client inside `extract_fishing_data` does:
either some exception is raised (network/API error), or a response body
string comes back. -/
inductive CallOutcome where
  | raises (msg : String)
  | responds (body : List Char)
deriving Repr, DecidableEq

/-- The chars before the next occurrence of the three-backtick fence:
`s.split(fence)[0]`. -/
def upToFence : List Char → List Char
  | [] => []
  | c :: rest =>
    if ['\x60', '\x60', '\x60'].isPrefixOf (c :: rest) then []
    else c :: upToFence rest

/-- Embeds the response clean-up in `extract_fishing_data`
(`backend/processor.py`): `content.strip()`, then if it starts with a
three-backtick fence keep `content.split(fence)[1]` (the part between the
first fence and the next one, i.e. drop 3 then cut at the next fence) and
drop a leading `"json"`, then strip again. -/
def cleanResponse (body : List Char) : List Char :=
  let content := Scraper.pyStrip body
  let content :=
    if ['\x60', '\x60', '\x60'].isPrefixOf content then
      let seg := upToFence (content.drop 3)
      if "json".toList.isPrefixOf seg then seg.drop 4 else seg
    else content
  Scraper.pyStrip content

/-- One attempt of the body of `extract_fishing_data`: a raised exception
propagates (`raise` in the final `except`), a received body is cleaned and
passed to `json.loads`; `json.JSONDecodeError` is caught and yields
`None`.  `json_loads` is the external JSON parser. -/
def attemptExtract (svc : Nat → CallOutcome)
    (json_loads : List Char → Option Extracted) (attempt : Nat) :
    Except String (Option Extracted) :=
  match svc attempt with
  | .raises msg => .error msg
  | .responds body => .ok (json_loads (cleanResponse body))

/-- Embeds the `tenacity` decorator
`@retry(stop=stop_after_attempt(3), wait=wait_exponential(...))` on
`extract_fishing_data`: up to three attempts, re-raising the last
exception; a non-exception result (including `None` from a JSON-decode
failure) ends the retrying at once.  Also returns the number of calls
made.  The exponential wait only affects real time, not the result. -/
def extract_fishing_data (svc : Nat → CallOutcome)
    (json_loads : List Char → Option Extracted) :
    Except String (Option Extracted) × Nat :=
  match attemptExtract svc json_loads 1 with
  | .ok v => (.ok v, 1)
  | .error _ =>
    match attemptExtract svc json_loads 2 with
    | .ok v => (.ok v, 2)
    | .error _ =>
      match attemptExtract svc json_loads 3 with
      | .ok v => (.ok v, 3)
      | .error m => (.error m, 3)

/-- Embeds `_process_single_report` (`backend/processor.py`): returns
`(report_id, extracted_data, error_message)`; an exception escaping the
retries becomes its message, a `None` extraction becomes
`"Failed to extract data"`. -/
def _process_single_report (svc : Nat → CallOutcome)
    (json_loads : List Char → Option Extracted) (reportId : Nat) :
    Nat × Option Extracted × Option String :=
  match extract_fishing_data svc json_loads with
  | (.error msg, _) => (reportId, none, some msg)
  | (.ok none, _) => (reportId, none, some "Failed to extract data")
  | (.ok (some d), _) => (reportId, some d, none)

/-- Embeds `get_season_from_month` (`backend/processor.py`). -/
def get_season_from_month (month : Int) : String :=
  if month = 12 ∨ month = 1 ∨ month = 2 then "winter"
  else if month = 3 ∨ month = 4 ∨ month = 5 then "spring"
  else if month = 6 ∨ month = 7 ∨ month = 8 then "summer"
  else "fall"

/-- The month/season/date derivation performed on each successfully
extracted report inside the `process_reports` loop
(`backend/processor.py`, the body after `if error: ... continue`).
`fromiso` is the external `datetime.fromisoformat`, reduced to the only
thing the code reads from it: the `month` of the parsed datetime, `none`
when it raises `ValueError`/`TypeError`. -/
def buildFields (fromiso : String → Option Int) (ext : Extracted)
    (r : RawRow) : ProcFields :=
  let month0 := ext.month
  let month :=
    if truthyInt month0 = false ∧ truthyStr r.date_posted then
      match r.date_posted with
      | some d => match fromiso d with
        | some m => some m
        | none => month0
      | none => month0
    else month0
  let season :=
    if truthyStr ext.season = false ∧ truthyInt month then
      month.map get_season_from_month
    else ext.season
  { date_posted := if truthyStr ext.date_posted then ext.date_posted else r.date_posted
    month := month
    season := season
    water_depth_feet := ext.water_depth_feet
    species_caught := ext.species_caught
    species_targeted := ext.species_targeted
    bait_lure := ext.bait_lure
    location := ext.location
    water_temp_f := ext.water_temp_f
    air_temp_f := ext.air_temp_f
    weather_conditions := ext.weather_conditions
    ice_thickness_inches := ext.ice_thickness_inches
    notes := ext.notes }

/-- Running totals of the `process_reports` loop plus the database. -/
structure LoopState where
  db : DB
  total_processed : Nat
  total_errors : Nat
deriving Repr, DecidableEq

/-- Handling of one completed future inside the batch loop: an error
increments `total_errors`; otherwise the derived record is inserted and
`total_processed` increments exactly when the insert succeeded.
(`as_completed` yields futures in an unspecified order; any linearization
gives the same totals and table contents up to insertion order, and we use
batch order.) -/
def handleOne (fromiso : String → Option Int)
    (outcome : Nat → Option Extracted) (st : LoopState) (r : RawRow) :
    LoopState :=
  match outcome r.id with
  | none => { st with total_errors := st.total_errors + 1 }
  | some ext =>
    match insert_processed_report st.db r.id (buildFields fromiso ext r) with
    | (some _, db2) => { st with db := db2, total_processed := st.total_processed + 1 }
    | (none, db2) => { st with db := db2 }

/-- The per-iteration fetch limit:
`min(batch_size, max_reports - total_processed) if max_reports else batch_size`. -/
def iterLimit (batch_size : Nat) (max_reports : Option Nat) (st : LoopState) : Nat :=
  if truthyNat max_reports
  then min batch_size (max_reports.getD 0 - st.total_processed)
  else batch_size

/-- One iteration of the `while True` loop in `process_reports`.
`outcome round r.id = some ext` means `_process_single_report` came back
for `r` with extracted data and no error; `none` means it reported an
error.  Returns `(loop continues, new state)`. -/
def processIteration (fromiso : String → Option Int)
    (outcome : Nat → Nat → Option Extracted) (batch_size : Nat)
    (max_reports : Option Nat) (round : Nat) (st : LoopState) :
    Bool × LoopState :=
  if truthyNat max_reports ∧ max_reports.getD 0 ≤ st.total_processed then
    (false, st)
  else
    let reports := get_unprocessed_reports st.db (iterLimit batch_size max_reports st)
    if reports = [] then (false, st)
    else (true, reports.foldl (handleOne fromiso (outcome round)) st)

/-- Embeds the `process_reports` driver loop (`backend/processor.py`) with
explicit fuel: `some st` means the loop reached one of its `break`
statements within `fuel` iterations and stopped in state `st`; `none`
means it was still running. -/
def process_reports (fromiso : String → Option Int)
    (outcome : Nat → Nat → Option Extracted) (batch_size : Nat)
    (max_reports : Option Nat) : Nat → Nat → LoopState → Option LoopState
  | 0, _, _ => none
  | fuel + 1, round, st =>
    match processIteration fromiso outcome batch_size max_reports round st with
    | (false, st2) => some st2
    | (true, st2) => process_reports fromiso outcome batch_size max_reports fuel (round + 1) st2

end Processor

namespace Api

open FishDB Processor

/-- A FastAPI `HTTPException`: status code and detail message. -/
structure HTTPError where
  status_code : Nat
  detail : String
deriving Repr, DecidableEq

/-- Embeds the endpoint `GET /reports/month/{month}`
(`get_reports_for_month` in `backend/api.py`): out-of-range months raise
`HTTPException(400)`, otherwise the result of `get_reports_by_month`. -/
def get_reports_for_month (db : DB) (month : Int) :
    Except HTTPError (List JoinedRow) :=
  if month < 1 ∨ month > 12 then
    .error ⟨400, "Month must be between 1 and 12"⟩
  else .ok (get_reports_by_month db month)

/-- Python truthiness of an optional rational (`None` and `0.0` falsy). -/
def truthyRat : Option ℚ → Bool
  | none => false
  | some q => q ≠ 0

/-- ASCII lower-casing, as SQLite `LIKE` is case-insensitive on ASCII. -/
def lowerAscii (s : String) : List Char :=
  s.toList.map fun c => if 'A' ≤ c ∧ c ≤ 'Z' then Char.ofNat (c.toNat + 32) else c

/-- SQLite `column LIKE '%pat%'`: case-insensitive substring test; a NULL
column never matches. -/
def likeContains (col : Option String) (pat : String) : Bool :=
  match col with
  | none => false
  | some s => decide (lowerAscii pat <:+: lowerAscii s)

/-- The search row shape `p.*, r.raw_content, r.username, r.image_urls`. -/
structure SearchRow where
  proc : ProcRow
  raw_content : Option String
  username : Option String
  image_urls : Option String
deriving Repr, DecidableEq

/-- The inner join used by `search_reports` and
`get_all_processed_reports`. -/
def joinRowsFull (db : DB) : List SearchRow :=
  db.processed.flatMap fun p =>
    (db.raw.filter (fun r => r.id = p.raw_report_id)).map fun r =>
      ⟨p, r.raw_content, r.username, r.image_urls⟩

/-- `ORDER BY p.date_posted DESC` over search rows. -/
def searchDateDescLe (a b : SearchRow) : Bool :=
  match a.proc.date_posted, b.proc.date_posted with
  | none, none => true
  | none, some _ => false
  | some _, none => true
  | some x, some y => decide (y ≤ x)

/-- Embeds the endpoint `GET /reports/search` (`search_reports` in
`backend/api.py`): each filter clause is appended to the SQL WHERE only
when the parameter is Python-truthy, then `ORDER BY p.date_posted DESC
LIMIT ?`.  FastAPI validates `month` into 1..12 or `None` before the
handler runs, so the parameter is already an optional int here. -/
def search_reports (db : DB) (month : Option Int)
    (season species location weather : Option String)
    (min_depth max_depth : Option ℚ) (lim : Nat) : List SearchRow :=
  let rows := joinRowsFull db
  let rows := if truthyInt month
    then rows.filter (fun j => j.proc.month = month) else rows
  let rows := if truthyStr season
    then rows.filter (fun j => j.proc.season = season) else rows
  let rows := match species with
    | some sp => if sp ≠ "" then
        rows.filter (fun (j : SearchRow) =>
          likeContains j.proc.species_caught sp || likeContains j.proc.species_targeted sp)
      else rows
    | none => rows
  let rows := match location with
    | some lo => if lo ≠ "" then
        rows.filter (fun (j : SearchRow) => likeContains j.proc.location lo) else rows
    | none => rows
  let rows := match weather with
    | some w => if w ≠ "" then
        rows.filter (fun (j : SearchRow) => likeContains j.proc.weather_conditions w) else rows
    | none => rows
  let rows := match min_depth with
    | some d => if d ≠ 0 then
        rows.filter (fun (j : SearchRow) => match j.proc.water_depth_feet with
          | some w => decide (d ≤ w)
          | none => false)
      else rows
    | none => rows
  let rows := match max_depth with
    | some d => if d ≠ 0 then
        rows.filter (fun (j : SearchRow) => match j.proc.water_depth_feet with
          | some w => decide (w ≤ d)
          | none => false)
      else rows
    | none => rows
  (List.insertionSort (fun a b => searchDateDescLe a b = true) rows).take lim

end Api

open Scraper FishDB Processor Api

/-- C1: `generate_source_id` is a pure function of `(username, date_posted,
first 100 characters of raw_content)`: for every md5 digest function and
every pair of inputs agreeing on username, date_posted and the first 100
characters of the body, the fingerprints coincide (so two distinct posts
agreeing on those three components collide), and identical inputs always
yield identical output. -/
theorem c1_source_id_pure (md5 : List Char → List Char)
    (u1 d1 c1 u2 d2 c2 : List Char) (hu : u1 = u2) (hd : d1 = d2)
    (hc : c1.take 100 = c2.take 100) :
    generate_source_id md5 u1 d1 c1 = generate_source_id md5 u2 d2 c2 := by
  subst hu
  subst hd
  unfold generate_source_id
  rw [hc]

/-- C1 witness: two distinct 101-character bodies agreeing on their first
100 characters produce the same fingerprint. -/
theorem c1_source_id_pure_witness :
    (List.replicate 100 'a' ++ ['b'] : List Char) ≠ List.replicate 100 'a' ++ ['c'] ∧
    (List.replicate 100 'a' ++ ['b'] : List Char).take 100 =
      (List.replicate 100 'a' ++ ['c'] : List Char).take 100 ∧
    generate_source_id (fun l => l) ['B', 'o', 'b'] ['d'] (List.replicate 100 'a' ++ ['b']) =
      generate_source_id (fun l => l) ['B', 'o', 'b'] ['d'] (List.replicate 100 'a' ++ ['c']) :=
  ⟨by decide, by decide,
   c1_source_id_pure (fun l => l) _ _ _ _ _ _ rfl rfl (by decide)⟩

/-- C2: duplicate inserts are silent no-ops with unchanged state: for every
database state, `insert_raw_report` with an already-present `source_id`
returns `None` and leaves the database unchanged, and
`insert_processed_report` with an already-present `raw_report_id` returns
`None` and leaves the database unchanged, so re-running extraction over an
already-processed raw report never increases the processed-record count. -/
theorem c2_duplicate_inserts_noop (db : DB) (sid : String) (f : RawFields)
    (rid : Nat) (g : ProcFields)
    (hraw : db.raw.any (fun r => r.source_id = sid) = true)
    (hproc : db.processed.any (fun p => p.raw_report_id = rid) = true) :
    insert_raw_report db sid f = (none, db) ∧
    insert_processed_report db rid g = (none, db) ∧
    ((insert_processed_report db rid g).2).processed.length = db.processed.length := by
  refine ⟨?_, ?_, ?_⟩ <;> simp [insert_raw_report, insert_processed_report, hraw, hproc]

/-- C2 witness: a concrete one-row database where both duplicate inserts
are no-ops. -/
theorem c2_duplicate_inserts_noop_witness :
    (let db : DB := ⟨[⟨1, "sid1", none, some "Bob", some "body", none, none, none⟩],
        [⟨1, 1, none, some 3, some "spring", none, none, none, none, none, none, none, none, none, none⟩], 2, 2⟩
     insert_raw_report db "sid1" ⟨none, none, none, none, none, none⟩ = (none, db) ∧
     insert_processed_report db 1 ⟨none, none, none, none, none, none, none, none, none, none, none, none, none⟩ = (none, db) ∧
     ((insert_processed_report db 1 ⟨none, none, none, none, none, none, none, none, none, none, none, none, none⟩).2).processed.length = db.processed.length) :=
  c2_duplicate_inserts_noop _ _ _ _ _ (by decide) (by decide)

/-- C8: `get_season_from_month` restricted to months 1..12 is a total
function into exactly one of winter/spring/summer/fall, with
{12,1,2} mapping to winter, {3,4,5} to spring, {6,7,8} to summer and
{9,10,11} to fall. -/
theorem c8_season_total_function (m : Int) (h1 : 1 ≤ m) (h2 : m ≤ 12) :
    (get_season_from_month m = "winter" ↔ (m = 12 ∨ m = 1 ∨ m = 2)) ∧
    (get_season_from_month m = "spring" ↔ (m = 3 ∨ m = 4 ∨ m = 5)) ∧
    (get_season_from_month m = "summer" ↔ (m = 6 ∨ m = 7 ∨ m = 8)) ∧
    (get_season_from_month m = "fall" ↔ (m = 9 ∨ m = 10 ∨ m = 11)) ∧
    get_season_from_month m ∈ ["winter", "spring", "summer", "fall"] := by
  interval_cases m <;> simp [get_season_from_month]

/-- C8 witness: month 7 is summer. -/
theorem c8_season_total_function_witness :
    (get_season_from_month 7 = "winter" ↔ ((7 : Int) = 12 ∨ (7 : Int) = 1 ∨ (7 : Int) = 2)) ∧
    (get_season_from_month 7 = "spring" ↔ ((7 : Int) = 3 ∨ (7 : Int) = 4 ∨ (7 : Int) = 5)) ∧
    (get_season_from_month 7 = "summer" ↔ ((7 : Int) = 6 ∨ (7 : Int) = 7 ∨ (7 : Int) = 8)) ∧
    (get_season_from_month 7 = "fall" ↔ ((7 : Int) = 9 ∨ (7 : Int) = 10 ∨ (7 : Int) = 11)) ∧
    get_season_from_month 7 ∈ ["winter", "spring", "summer", "fall"] :=
  c8_season_total_function 7 (by decide) (by decide)

/-- C9: `GET /reports/month/{month}` returns a 400 client error for every
integer month outside 1..12, and for every month in 1..12 it returns (with
no error) exactly the joined processed reports whose month equals the
requested month. -/
theorem c9_month_endpoint (db : DB) (m : Int) :
    ((m < 1 ∨ 12 < m) →
      get_reports_for_month db m = .error ⟨400, "Month must be between 1 and 12"⟩) ∧
    (1 ≤ m → m ≤ 12 → ∃ l, get_reports_for_month db m = .ok l ∧
      ∀ j, j ∈ l ↔ (j ∈ joinRows db ∧ j.proc.month = some m)) := by
  constructor
  · intro h
    have : m < 1 ∨ m > 12 := h
    simp [get_reports_for_month, this]
  · intro h1 h2
    have hc : ¬ (m < 1 ∨ m > 12) := by omega
    refine ⟨get_reports_by_month db m, by simp [get_reports_for_month, hc], ?_⟩
    intro j
    unfold get_reports_by_month
    rw [List.mem_insertionSort, List.mem_filter]
    simp

/-- C9 witness: on a concrete database, month 13 gives the 400 error and
month 3 gives exactly the month-3 joined rows. -/
theorem c9_month_endpoint_witness :
    (let db : DB := ⟨[⟨1, "sid1", none, some "Bob", some "body", none, none, none⟩],
        [⟨1, 1, some "2024-03-01T14:15:00", some 3, some "spring", none, none, none, none, none, none, none, none, none, none⟩], 2, 2⟩
     get_reports_for_month db 13 = .error ⟨400, "Month must be between 1 and 12"⟩ ∧
     ∃ l, get_reports_for_month db 3 = .ok l ∧
       ∀ j, j ∈ l ↔ (j ∈ joinRows db ∧ j.proc.month = some 3)) :=
  ⟨(c9_month_endpoint _ 13).1 (by decide), (c9_month_endpoint _ 3).2 (by decide) (by decide)⟩

/-- C10: in `GET /reports/search`, a depth filter with value zero is not
applied: for every database state and all other parameters, a request with
`min_depth=0` (or `max_depth=0`) returns exactly the same result as the
same request with that parameter omitted. -/
theorem c10_zero_depth_filter_ignored (db : DB) (month : Option Int)
    (season species location weather : Option String)
    (mind maxd : Option ℚ) (lim : Nat) :
    search_reports db month season species location weather (some 0) maxd lim =
      search_reports db month season species location weather none maxd lim ∧
    search_reports db month season species location weather mind (some 0) lim =
      search_reports db month season species location weather mind none lim := by
  constructor <;> simp [search_reports]

/-- C4 counterexample: the claim says the stored `date_posted` is the
service's value whenever the service supplied one, falling back to the raw
report only when the service returned none; but `extracted.get("date_posted")
or report.get("date_posted")` also falls back when the service returns the
empty string, so the service's value `""` is not stored. -/
theorem c4_date_fallback_counterexample :
    (let ext : Extracted := ⟨some "", some 1, some "winter", none, none, none,
        none, none, none, none, none, none, none⟩
     let r : RawRow := ⟨1, "sid1", some "2024-03-01T14:15:00", some "Bob",
        some "body", none, none, none⟩
     ext.date_posted = some "" ∧
     (buildFields (fun _ => none) ext r).date_posted = some "2024-03-01T14:15:00" ∧
     (buildFields (fun _ => none) ext r).date_posted ≠ ext.date_posted) := by
  decide

/-- C4 amended: for every extraction response and raw report, (1) if the
service supplied no month and the raw report's `date_posted` parses as an
ISO timestamp, the stored month is that timestamp's month; (2) if the
service supplied no season and the stored month is a genuine month 1..12,
the stored season is `get_season_from_month` of it; (3) the stored
`date_posted` is the service's value when that value is a non-empty
string, and falls back to the raw report's `date_posted` when the service
returned none (or an empty string, per the counterexample).
`fromiso` abstracts `datetime.fromisoformat`, which rejects `""`. -/
theorem c4_derivation_amended (fromiso : String → Option Int)
    (ext : Extracted) (r : RawRow) (hiso0 : fromiso "" = none) :
    (∀ d m, ext.month = none → r.date_posted = some d → fromiso d = some m →
      (buildFields fromiso ext r).month = some m) ∧
    (∀ m, ext.season = none → (buildFields fromiso ext r).month = some m →
      1 ≤ m → m ≤ 12 →
      (buildFields fromiso ext r).season = some (get_season_from_month m)) ∧
    (∀ v, ext.date_posted = some v → v ≠ "" →
      (buildFields fromiso ext r).date_posted = some v) ∧
    (ext.date_posted = none →
      (buildFields fromiso ext r).date_posted = r.date_posted) := by
  refine ⟨?_, ?_, ?_, ?_⟩
  · intro d m hm hd hf
    have hne : d ≠ "" := by
      intro h
      rw [h, hiso0] at hf
      exact Option.noConfusion hf
    simp [buildFields, hm, hd, hf, truthyInt, truthyStr, hne]
  · intro m hs hm h1 h2
    have hm0 : m ≠ 0 := by omega
    unfold buildFields at hm ⊢
    simp only [hs] at hm ⊢
    simp only [truthyStr, ne_eq, decide_not] at hm ⊢
    rw [hm]
    simp [truthyInt, hm0]
  · intro v hv hne
    simp [buildFields, truthyStr, hv, hne]
  · intro hv
    simp [buildFields, truthyStr, hv]

/-- C4 witness: a concrete service response with no month, no season and no
date, against a raw report whose date parses with month 3: the stored month
is 3, the stored season is spring, and the stored date falls back to the
raw report's. -/
theorem c4_derivation_amended_witness :
    (let fromiso : String → Option Int :=
       fun s => if s = "2024-03-01T14:15:00" then some 3 else none
     let ext : Extracted := ⟨none, none, none, none, none, none, none, none,
        none, none, none, none, none⟩
     let r : RawRow := ⟨1, "sid1", some "2024-03-01T14:15:00", some "Bob",
        some "body", none, none, none⟩
     (buildFields fromiso ext r).month = some 3 ∧
     (buildFields fromiso ext r).season = some (get_season_from_month 3) ∧
     (buildFields fromiso ext r).date_posted = r.date_posted) := by
  refine ⟨?_, ?_, ?_⟩
  · exact (c4_derivation_amended _ _ _ (by decide)).1 "2024-03-01T14:15:00" 3 rfl rfl (by decide)
  · refine (c4_derivation_amended _ _ _ (by decide)).2.1 3 rfl ?_ (by decide) (by decide)
    exact (c4_derivation_amended _ _ _ (by decide)).1 "2024-03-01T14:15:00" 3 rfl rfl (by decide)
  · exact (c4_derivation_amended _ _ _ (by decide)).2.2.2 rfl

/-- C7 counterexample: the extractor performs no validation of
service-supplied values, so a response with `month = 13` is stored as-is:
running the full `process_reports` loop on a one-report database against a
service answering `month = 13, season = "fall"` leaves a processed record
whose month is 13, outside 1..12. -/
theorem c7_month_range_counterexample :
    (let ext13 : Extracted := ⟨none, some 13, some "fall", none, none, none,
        none, none, none, none, none, none, none⟩
     let db : DB := ⟨[⟨1, "sid1", some "2024-03-01T14:15:00", some "Bob",
        some "body", none, none, none⟩], [], 2, 1⟩
     (process_reports (fun _ => none) (fun _ _ => some ext13) 100 none 3 0
        ⟨db, 0, 0⟩).map (fun st => st.db.processed.map (fun p => p.month)) =
       some [some 13] ∧
     ¬ (1 ≤ (13 : Int) ∧ (13 : Int) ≤ 12)) := by
  decide

/-- C7 amended: the values the extractor itself derives are always in
range — a derived month comes from `datetime.fromisoformat(...).month` and
is 1..12, a derived season is always one of the four — but service-supplied
months and seasons are stored without validation, so the data-model
constraint holds only for responses that respect the service contract
(`month` in 1..12 or absent, `season` one of the four or absent). -/
theorem buildFields_month_eq (fromiso : String → Option Int)
    (ext : Extracted) (r : RawRow) :
    (buildFields fromiso ext r).month =
      if truthyInt ext.month = false ∧ truthyStr r.date_posted = true then
        (match r.date_posted with
         | some d => (match fromiso d with
           | some m => some m
           | none => ext.month)
         | none => ext.month)
      else ext.month := rfl

theorem buildFields_season_eq (fromiso : String → Option Int)
    (ext : Extracted) (r : RawRow) :
    (buildFields fromiso ext r).season =
      if truthyStr ext.season = false ∧ truthyInt (buildFields fromiso ext r).month = true then
        ((buildFields fromiso ext r).month).map get_season_from_month
      else ext.season := rfl

theorem buildFields_date_eq (fromiso : String → Option Int)
    (ext : Extracted) (r : RawRow) :
    (buildFields fromiso ext r).date_posted =
      if truthyStr ext.date_posted = true then ext.date_posted
      else r.date_posted := rfl

theorem get_season_mem (m : Int) :
    get_season_from_month m ∈ ["winter", "spring", "summer", "fall"] := by
  unfold get_season_from_month
  split_ifs <;> simp

theorem c7_derived_fields_amended (fromiso : String → Option Int)
    (ext : Extracted) (r : RawRow)
    (hrange : ∀ s k, fromiso s = some k → 1 ≤ k ∧ k ≤ 12) :
    (ext.month = none → (buildFields fromiso ext r).month = none ∨
      ∃ k, (buildFields fromiso ext r).month = some k ∧ 1 ≤ k ∧ k ≤ 12) ∧
    (ext.season = none → (buildFields fromiso ext r).season = none ∨
      (buildFields fromiso ext r).season ∈
        [some "winter", some "spring", some "summer", some "fall"]) ∧
    (∀ k, ext.month = some k → k ≠ 0 → (buildFields fromiso ext r).month = some k) ∧
    (∀ s, ext.season = some s → s ≠ "" → (buildFields fromiso ext r).season = some s) := by
  refine ⟨?_, ?_, ?_, ?_⟩
  · intro hm
    rw [buildFields_month_eq, hm]
    rcases hr : r.date_posted with _ | d
    · simp [truthyStr]
    · by_cases hd : d = ""
      · simp [truthyStr, hd]
      · rcases hf : fromiso d with _ | k
        · simp [truthyInt, truthyStr, hd, hf]
        · have hb := hrange d k hf
          have hcond : truthyInt (none : Option Int) = false ∧ truthyStr (some d) = true := by
            simp [truthyInt, truthyStr, hd]
          rw [if_pos hcond]
          simp only [hf]
          exact Or.inr ⟨k, rfl, hb.1, hb.2⟩
  · intro hs
    rw [buildFields_season_eq, hs]
    rcases hM : (buildFields fromiso ext r).month with _ | m
    · simp [truthyInt]
    · by_cases hm0 : m = 0
      · simp [truthyInt, hm0]
      · right
        have hb := get_season_mem m
        have hcond : truthyStr (none : Option String) = false ∧ truthyInt (some m) = true := by
          simp [truthyStr, truthyInt, hm0]
        rw [if_pos hcond]
        simpa using hb
  · intro k hk hk0
    rw [buildFields_month_eq, hk]
    simp [truthyInt, hk0]
  · intro s hs hs0
    rw [buildFields_season_eq, hs]
    simp [truthyStr, hs0, hs]

/-- C7 witness: a response with month and season absent, against a raw
report whose date parses as July: the stored month is in range and the
stored season is one of the four; and a supplied in-range month is kept. -/
theorem c7_derived_fields_amended_witness :
    (let fromiso : String → Option Int :=
       fun s => if s = "2023-07-04T08:00:00" then some 7 else none
     let ext : Extracted := ⟨none, none, none, none, none, none, none, none,
        none, none, none, none, none⟩
     let r : RawRow := ⟨1, "sid1", some "2023-07-04T08:00:00", some "Bob",
        some "body", none, none, none⟩
     ((buildFields fromiso ext r).month = none ∨
       ∃ k, (buildFields fromiso ext r).month = some k ∧ 1 ≤ k ∧ k ≤ 12) ∧
     ((buildFields fromiso ext r).season = none ∨
       (buildFields fromiso ext r).season ∈
         [some "winter", some "spring", some "summer", some "fall"]) ∧
     (buildFields fromiso ⟨none, some 5, some "spring", none, none, none,
        none, none, none, none, none, none, none⟩ r).month = some 5) := by
  refine ⟨?_, ?_, ?_⟩
  · exact (c7_derived_fields_amended _ _ _ (by
      intro s k h
      by_cases hs : s = "2023-07-04T08:00:00"
      · simp [hs] at h
        omega
      · simp [hs] at h)).1 rfl
  · exact (c7_derived_fields_amended _ _ _ (by
      intro s k h
      by_cases hs : s = "2023-07-04T08:00:00"
      · simp [hs] at h
        omega
      · simp [hs] at h)).2.1 rfl
  · exact (c7_derived_fields_amended _ _ _ (by
      intro s k h
      by_cases hs : s = "2023-07-04T08:00:00"
      · simp [hs] at h
        omega
      · simp [hs] at h)).2.2.1 5 rfl (by decide)

/-- C5: for every report, the external extraction call is attempted up to 3
times on raised (transient) failure — two raised failures followed by a
parseable response still succeed on the third call, and three raised
failures end as a per-report error tuple (not an unhandled exception)
without touching the database — whereas a response whose body fails to
parse as JSON after fence-stripping produces the per-report error after
exactly one call: JSON-decode failure is never retried. -/
theorem c5_retry_policy :
    (∀ (svc : Nat → CallOutcome) (jl : List Char → Option Extracted) e1 e2 b d,
      svc 1 = .raises e1 → svc 2 = .raises e2 → svc 3 = .responds b →
      jl (cleanResponse b) = some d →
      extract_fishing_data svc jl = (.ok (some d), 3)) ∧
    (∀ (svc : Nat → CallOutcome) (jl : List Char → Option Extracted) e1 e2 e3 rid,
      svc 1 = .raises e1 → svc 2 = .raises e2 → svc 3 = .raises e3 →
      extract_fishing_data svc jl = (.error e3, 3) ∧
      _process_single_report svc jl rid = (rid, none, some e3)) ∧
    (∀ (svc : Nat → CallOutcome) (jl : List Char → Option Extracted) b rid,
      svc 1 = .responds b → jl (cleanResponse b) = none →
      extract_fishing_data svc jl = (.ok none, 1) ∧
      _process_single_report svc jl rid = (rid, none, some "Failed to extract data")) := by
  refine ⟨?_, ?_, ?_⟩
  · intro svc jl e1 e2 b d h1 h2 h3 hj
    simp [extract_fishing_data, attemptExtract, h1, h2, h3, hj]
  · intro svc jl e1 e2 e3 rid h1 h2 h3
    constructor
    · simp [extract_fishing_data, attemptExtract, h1, h2, h3]
    · simp [_process_single_report, extract_fishing_data, attemptExtract, h1, h2, h3]
  · intro svc jl b rid h1 hj
    constructor
    · simp [extract_fishing_data, attemptExtract, h1, hj]
    · simp [_process_single_report, extract_fishing_data, attemptExtract, h1, hj]

/-- C5 witness: concrete services exercising all three branches: failures
on the first two calls with success on the third; permanent failure; and a
malformed-JSON response answered on the first call. -/
theorem c5_retry_policy_witness :
    (let extOk : Extracted := ⟨none, some 3, some "spring", none,
       some "Largemouth Bass", none, some "jig", some "north shore drop off",
       none, none, none, none, none⟩
     let jl : List Char → Option Extracted :=
       fun l => if l = ['o', 'k'] then some extOk else none
     let svcFlaky : Nat → CallOutcome :=
       fun n => if n ≤ 2 then .raises "timeout" else .responds ['o', 'k']
     let svcDead : Nat → CallOutcome := fun _ => .raises "down"
     let svcBad : Nat → CallOutcome := fun _ => .responds ['?']
     extract_fishing_data svcFlaky jl = (.ok (some extOk), 3) ∧
     (extract_fishing_data svcDead jl = (.error "down", 3) ∧
       _process_single_report svcDead jl 7 = (7, none, some "down")) ∧
     (extract_fishing_data svcBad jl = (.ok none, 1) ∧
       _process_single_report svcBad jl 7 = (7, none, some "Failed to extract data"))) := by
  refine ⟨?_, ?_, ?_⟩
  · exact c5_retry_policy.1 _ _ "timeout" "timeout" ['o', 'k'] _ rfl rfl rfl (by decide)
  · exact c5_retry_policy.2.1 _ _ "down" "down" "down" 7 rfl rfl rfl
  · exact c5_retry_policy.2.2 _ _ ['?'] 7 rfl (by decide)

theorem insert_processed_raw_eq (db : DB) (i : Nat) (f : ProcFields) :
    (insert_processed_report db i f).2.raw = db.raw := by
  unfold insert_processed_report
  split <;> rfl

theorem insert_processed_superset (db : DB) (i : Nat) (f : ProcFields)
    (p : ProcRow) (hp : p ∈ db.processed) :
    p ∈ (insert_processed_report db i f).2.processed := by
  unfold insert_processed_report
  split
  · exact hp
  · simp only []
    exact List.mem_append_left _ hp

theorem insert_processed_present (db : DB) (i : Nat) (f : ProcFields) :
    ∃ q ∈ (insert_processed_report db i f).2.processed, q.raw_report_id = i := by
  unfold insert_processed_report
  split
  · rename_i h
    rcases List.any_eq_true.mp h with ⟨q, hq, he⟩
    exact ⟨q, hq, by simpa using he⟩
  · refine ⟨_, List.mem_append_right _ (List.mem_singleton_self _), rfl⟩

theorem handleOne_raw_eq (fromiso : String → Option Int)
    (oc : Nat → Option Extracted) (st : LoopState) (r : RawRow) :
    (handleOne fromiso oc st r).db.raw = st.db.raw := by
  rcases ho : oc r.id with _ | ext
  · simp [handleOne, ho]
  · have hr := insert_processed_raw_eq st.db r.id (buildFields fromiso ext r)
    rcases hins : insert_processed_report st.db r.id (buildFields fromiso ext r) with ⟨o, db2⟩
    rw [hins] at hr
    rcases o with _ | k <;> simp [handleOne, ho, hins] <;> simpa using hr

theorem handleOne_superset (fromiso : String → Option Int)
    (oc : Nat → Option Extracted) (st : LoopState) (r : RawRow)
    (p : ProcRow) (hp : p ∈ st.db.processed) :
    p ∈ (handleOne fromiso oc st r).db.processed := by
  rcases ho : oc r.id with _ | ext
  · simpa [handleOne, ho] using hp
  · have hs := insert_processed_superset st.db r.id (buildFields fromiso ext r) p hp
    rcases hins : insert_processed_report st.db r.id (buildFields fromiso ext r) with ⟨o, db2⟩
    rw [hins] at hs
    rcases o with _ | k <;> simp [handleOne, ho, hins] <;> simpa using hs

theorem handleOne_present (fromiso : String → Option Int)
    (oc : Nat → Option Extracted) (st : LoopState) (r : RawRow)
    (hsucc : oc r.id ≠ none) :
    ∃ q ∈ (handleOne fromiso oc st r).db.processed, q.raw_report_id = r.id := by
  rcases ho : oc r.id with _ | ext
  · exact absurd ho hsucc
  · have hq := insert_processed_present st.db r.id (buildFields fromiso ext r)
    rcases hins : insert_processed_report st.db r.id (buildFields fromiso ext r) with ⟨o, db2⟩
    rw [hins] at hq
    rcases o with _ | k <;> simp [handleOne, ho, hins] <;> simpa using hq

theorem foldl_handleOne_raw_eq (fromiso : String → Option Int)
    (oc : Nat → Option Extracted) :
    ∀ (batch : List RawRow) (st : LoopState),
      (batch.foldl (handleOne fromiso oc) st).db.raw = st.db.raw := by
  intro batch
  induction batch with
  | nil => intro st; rfl
  | cons r rest ih =>
    intro st
    rw [List.foldl_cons, ih, handleOne_raw_eq]

theorem foldl_handleOne_superset (fromiso : String → Option Int)
    (oc : Nat → Option Extracted) :
    ∀ (batch : List RawRow) (st : LoopState) (p : ProcRow),
      p ∈ st.db.processed → p ∈ (batch.foldl (handleOne fromiso oc) st).db.processed := by
  intro batch
  induction batch with
  | nil => intro st p hp; exact hp
  | cons r rest ih =>
    intro st p hp
    rw [List.foldl_cons]
    exact ih _ p (handleOne_superset fromiso oc st r p hp)

theorem foldl_handleOne_present (fromiso : String → Option Int)
    (oc : Nat → Option Extracted) :
    ∀ (batch : List RawRow) (st : LoopState), (∀ r ∈ batch, oc r.id ≠ none) →
      ∀ r ∈ batch, ∃ q ∈ (batch.foldl (handleOne fromiso oc) st).db.processed,
        q.raw_report_id = r.id := by
  intro batch
  induction batch with
  | nil => intro st _ r hr; exact absurd hr (List.not_mem_nil r)
  | cons r0 rest ih =>
    intro st hsucc r hr
    rw [List.foldl_cons]
    rcases List.mem_cons.mp hr with h | h
    · subst h
      rcases handleOne_present fromiso oc st r (hsucc r (List.mem_cons_self r rest)) with ⟨q, hq, he⟩
      exact ⟨q, foldl_handleOne_superset fromiso oc rest _ q hq, he⟩
    · exact ih _ (fun x hx => hsucc x (List.mem_cons_of_mem _ hx)) r h

theorem countP_strict {α : Type} (p q : α → Bool)
    (himp : ∀ a, p a = true → q a = true) :
    ∀ (l : List α) (b : α), b ∈ l → q b = true → p b = false →
      l.countP p < l.countP q := by
  intro l
  induction l with
  | nil => intro b hb; exact absurd hb (List.not_mem_nil b)
  | cons a t ih =>
    intro b hb hqb hpb
    rw [List.countP_cons, List.countP_cons]
    rcases List.mem_cons.mp hb with h | h
    · subst h
      rw [hpb, hqb]
      have hle : t.countP p ≤ t.countP q :=
        List.countP_mono_left (fun x _ hx => himp x hx)
      simp only [Bool.false_eq_true, if_false, if_true]
      omega
    · have hlt := ih b h hqb hpb
      have hif : (if p a = true then 1 else 0) ≤ (if q a = true then 1 else 0) := by
        by_cases hpa : p a = true
        · rw [if_pos hpa, if_pos (himp a hpa)]
        · rw [if_neg hpa]
          omega
      omega

theorem isUnprocessed_false_of (db : DB) (r : RawRow) (q : ProcRow)
    (hq : q ∈ db.processed) (he : q.raw_report_id = r.id) :
    isUnprocessed db r = false := by
  simp only [isUnprocessed, Bool.decide_coe, decide_not, Bool.not_eq_false',
    decide_eq_true_eq, List.any_eq_true]
  exact ⟨q, hq, by simpa using he⟩

theorem isUnprocessed_mono (dbOld dbNew : DB)
    (hsub : ∀ p ∈ dbOld.processed, p ∈ dbNew.processed) (r : RawRow)
    (h : isUnprocessed dbNew r = true) : isUnprocessed dbOld r = true := by
  simp only [isUnprocessed, Bool.decide_coe, decide_not, Bool.not_eq_true',
    List.any_eq_false] at h ⊢
  intro p hp
  exact h p (hsub p hp)

theorem c6_batch_shrink (fromiso : String → Option Int)
    (oc : Nat → Option Extracted) (st : LoopState) (limit : Nat)
    (hsucc : ∀ i, oc i ≠ none)
    (hne : get_unprocessed_reports st.db limit ≠ []) :
    (unprocessedRows ((get_unprocessed_reports st.db limit).foldl
        (handleOne fromiso oc) st).db).length < (unprocessedRows st.db).length := by
  have hraw : ((get_unprocessed_reports st.db limit).foldl (handleOne fromiso oc) st).db.raw
      = st.db.raw :=
    foldl_handleOne_raw_eq fromiso oc _ st
  unfold unprocessedRows
  rw [List.length_insertionSort, List.length_insertionSort, hraw,
    ← List.countP_eq_length_filter, ← List.countP_eq_length_filter]
  have hsub : ∀ p ∈ st.db.processed,
      p ∈ ((get_unprocessed_reports st.db limit).foldl (handleOne fromiso oc) st).db.processed :=
    fun p hp => foldl_handleOne_superset fromiso oc _ st p hp
  set b := (get_unprocessed_reports st.db limit).head (by exact hne) with hbdef
  have hbmem : b ∈ get_unprocessed_reports st.db limit := List.head_mem _
  have hbun : b ∈ unprocessedRows st.db := by
    have := List.mem_of_mem_take (l := unprocessedRows st.db) hbmem
    exact this
  have hbfil : b ∈ st.db.raw.filter (isUnprocessed st.db) := by
    unfold unprocessedRows at hbun
    exact (List.mem_insertionSort _).mp hbun
  have hbraw : b ∈ st.db.raw := (List.mem_filter.mp hbfil).1
  have hbq : isUnprocessed st.db b = true := (List.mem_filter.mp hbfil).2
  have hbp : isUnprocessed ((get_unprocessed_reports st.db limit).foldl
      (handleOne fromiso oc) st).db b = false := by
    rcases foldl_handleOne_present fromiso oc _ st
        (fun r _ => hsucc r.id) b hbmem with ⟨q, hq, he⟩
    exact isUnprocessed_false_of _ b q hq he
  exact countP_strict _ _
    (fun a ha => isUnprocessed_mono _ _ hsub a ha) _ b hbraw hbq hbp

theorem process_reports_succ (fromiso : String → Option Int)
    (oc : Nat → Nat → Option Extracted) (bs : Nat) (maxr : Option Nat)
    (n round : Nat) (st : LoopState) :
    process_reports fromiso oc bs maxr (n + 1) round st =
      (match processIteration fromiso oc bs maxr round st with
       | (false, st2) => some st2
       | (true, st2) => process_reports fromiso oc bs maxr n (round + 1) st2) := rfl

theorem processIteration_stop_max (fromiso : String → Option Int)
    (oc : Nat → Nat → Option Extracted) (bs : Nat) (maxr : Option Nat)
    (round : Nat) (st : LoopState)
    (h : truthyNat maxr = true ∧ maxr.getD 0 ≤ st.total_processed) :
    processIteration fromiso oc bs maxr round st = (false, st) := by
  unfold processIteration
  rw [if_pos h]

theorem processIteration_stop_empty (fromiso : String → Option Int)
    (oc : Nat → Nat → Option Extracted) (bs : Nat) (maxr : Option Nat)
    (round : Nat) (st : LoopState)
    (hmax : ¬ (truthyNat maxr = true ∧ maxr.getD 0 ≤ st.total_processed))
    (hrep : get_unprocessed_reports st.db (iterLimit bs maxr st) = []) :
    processIteration fromiso oc bs maxr round st = (false, st) := by
  unfold processIteration
  rw [if_neg hmax]
  simp only [hrep, if_pos]

theorem processIteration_continue (fromiso : String → Option Int)
    (oc : Nat → Nat → Option Extracted) (bs : Nat) (maxr : Option Nat)
    (round : Nat) (st : LoopState)
    (hmax : ¬ (truthyNat maxr = true ∧ maxr.getD 0 ≤ st.total_processed))
    (hrep : get_unprocessed_reports st.db (iterLimit bs maxr st) ≠ []) :
    processIteration fromiso oc bs maxr round st =
      (true, (get_unprocessed_reports st.db (iterLimit bs maxr st)).foldl
        (handleOne fromiso (oc round)) st) := by
  unfold processIteration
  rw [if_neg hmax]
  simp [hrep]

theorem c6_terminates_aux (fromiso : String → Option Int)
    (oc : Nat → Nat → Option Extracted) (bs : Nat) (maxr : Option Nat)
    (hb : 1 ≤ bs) (hsucc : ∀ rd i, oc rd i ≠ none) :
    ∀ (fuel : Nat) (st : LoopState) (round : Nat),
      (unprocessedRows st.db).length < fuel →
      ∃ st2, process_reports fromiso oc bs maxr fuel round st = some st2 ∧
        (unprocessedRows st2.db = [] ∨
          ∃ m, maxr = some m ∧ m ≠ 0 ∧ m ≤ st2.total_processed) := by
  intro fuel
  induction fuel with
  | zero => intro st round h; omega
  | succ n ih =>
    intro st round h
    by_cases hmax : truthyNat maxr = true ∧ maxr.getD 0 ≤ st.total_processed
    · refine ⟨st, ?_, Or.inr ?_⟩
      · rw [process_reports_succ, processIteration_stop_max fromiso oc bs maxr round st hmax]
      · rcases maxr with _ | m
        · exact absurd hmax.1 (by simp [truthyNat])
        · refine ⟨m, rfl, ?_, ?_⟩
          · have hm := hmax.1
            simpa [truthyNat] using hm
          · simpa using hmax.2
    · by_cases hrep : get_unprocessed_reports st.db (iterLimit bs maxr st) = []
      · refine ⟨st, ?_, Or.inl ?_⟩
        · rw [process_reports_succ,
            processIteration_stop_empty fromiso oc bs maxr round st hmax hrep]
        · have hL : iterLimit bs maxr st ≠ 0 := by
            unfold iterLimit
            split
            · rename_i ht
              rcases maxr with _ | m
              · simp [truthyNat] at ht
              · have hm : m ≠ 0 := by simpa [truthyNat] using ht
                have hnot : ¬ (m ≤ st.total_processed) := by
                  intro hle
                  exact hmax ⟨ht, by simpa using hle⟩
                simp only [Option.getD_some]
                omega
            · omega
          unfold get_unprocessed_reports at hrep
          rcases List.take_eq_nil_iff.mp hrep with h0 | hnil
          · exact absurd h0 hL
          · exact hnil
      · have hcont := processIteration_continue fromiso oc bs maxr round st hmax hrep
        have hshrink := c6_batch_shrink fromiso (oc round) st (iterLimit bs maxr st)
          (hsucc round) hrep
        have hlt : (unprocessedRows ((get_unprocessed_reports st.db
            (iterLimit bs maxr st)).foldl (handleOne fromiso (oc round)) st).db).length < n := by
          omega
        rcases ih _ (round + 1) hlt with ⟨stf, hrun, hpost⟩
        refine ⟨stf, ?_, hpost⟩
        rw [process_reports_succ, hcont]
        exact hrun

/-- The raw report of the C6 databases. -/
def c6RawRow : RawRow := ⟨1, "sid1", none, none, some "body", none, none, none⟩

/-- A database holding one raw report and no processed reports. -/
def c6DB : DB := ⟨[c6RawRow], [], 2, 1⟩

theorem c6_stuck (fuel round tp te : Nat) :
    process_reports (fun _ => none) (fun _ _ => none) 100 none fuel round
      ⟨c6DB, tp, te⟩ = none := by
  induction fuel generalizing round tp te with
  | zero => rfl
  | succ n ih =>
    have hmax : ¬ (truthyNat (none : Option Nat) = true ∧
        (none : Option Nat).getD 0 ≤ (⟨c6DB, tp, te⟩ : LoopState).total_processed) := by
      simp [truthyNat]
    have hbatch0 : get_unprocessed_reports c6DB 100 = [c6RawRow] := by decide
    have hbatch : get_unprocessed_reports (⟨c6DB, tp, te⟩ : LoopState).db
        (iterLimit 100 none (⟨c6DB, tp, te⟩ : LoopState)) = [c6RawRow] := hbatch0
    have hcont := processIteration_continue (fun _ => none) (fun _ _ => none) 100 none
      round (⟨c6DB, tp, te⟩ : LoopState) hmax (by rw [hbatch]; exact List.cons_ne_nil _ _)
    rw [process_reports_succ, hcont, hbatch]
    have hfold : [c6RawRow].foldl (handleOne (fun _ => none) ((fun _ _ => none) round))
        (⟨c6DB, tp, te⟩ : LoopState) = ⟨c6DB, tp, te + 1⟩ := rfl
    rw [hfold]
    exact ih (round + 1) tp (te + 1)

/-- The loop of `process_reports` reaches one of its `break` statements
within some finite number of iterations, started on `db` with fresh
counters. -/
def loop_terminates (fromiso : String → Option Int)
    (oc : Nat → Nat → Option Extracted) (bs : Nat) (maxr : Option Nat)
    (db : DB) : Prop :=
  ∃ fuel st, process_reports fromiso oc bs maxr fuel 0 ⟨db, 0, 0⟩ = some st

/-- C6 counterexample: the claim asserts the batch loop stops for every
extraction-service behaviour, including one that permanently fails for
some report; but with one raw report, a service whose every extraction
ends in a per-report error, and no `max_reports` cap, the loop re-fetches
and re-fails the same report forever — it never reaches a `break`. -/
theorem c6_nontermination_counterexample :
    ¬ loop_terminates (fun _ => none) (fun _ _ => none) 100 none c6DB := by
  rintro ⟨fuel, st, h⟩
  rw [c6_stuck] at h
  exact Option.noConfusion h

/-- C6 amended: the loop stops when a fetched batch is empty (no raw report
lacks a processed record) or when `total_processed` reaches a set
`max_reports`; this termination is guaranteed whenever every
per-report extraction succeeds (and, per the counterexample, can fail to
hold when some report's extraction fails forever, since errored reports
are refetched in every later batch and never counted towards
`max_reports`). -/
theorem c6_termination_amended (fromiso : String → Option Int)
    (oc : Nat → Nat → Option Extracted) (bs : Nat) (maxr : Option Nat)
    (db : DB) (hb : 1 ≤ bs) (hsucc : ∀ rd i, oc rd i ≠ none) :
    loop_terminates fromiso oc bs maxr db ∧
    ∃ st, process_reports fromiso oc bs maxr ((unprocessedRows db).length + 1) 0
        ⟨db, 0, 0⟩ = some st ∧
      (unprocessedRows st.db = [] ∨
        ∃ m, maxr = some m ∧ m ≠ 0 ∧ m ≤ st.total_processed) := by
  rcases c6_terminates_aux fromiso oc bs maxr hb hsucc
      ((unprocessedRows db).length + 1) ⟨db, 0, 0⟩ 0 (Nat.lt_succ_self _)
    with ⟨st, hrun, hpost⟩
  exact ⟨⟨_, st, hrun⟩, st, hrun, hpost⟩

/-- C6 witness: with an always-succeeding service the loop over the
one-report database terminates, ending with no unprocessed reports. -/
theorem c6_termination_amended_witness :
    (let ext : Extracted := ⟨none, some 3, some "spring", none, none, none,
       none, none, none, none, none, none, none⟩
     loop_terminates (fun _ => none) (fun _ _ => some ext) 100 none c6DB ∧
     ∃ st, process_reports (fun _ => none) (fun _ _ => some ext) 100 none
         ((unprocessedRows c6DB).length + 1) 0 ⟨c6DB, 0, 0⟩ = some st ∧
       (unprocessedRows st.db = [] ∨
         ∃ m, (none : Option Nat) = some m ∧ m ≠ 0 ∧ m ≤ st.total_processed)) :=
  c6_termination_amended _ _ 100 none c6DB (by decide)
    (fun _ _ h => Option.noConfusion h)

theorem digitChar_isDigit (n : Nat) : (digitChar n).isDigit = true := by
  unfold digitChar
  split_ifs <;> decide

theorem digitChar_not_ws (n : Nat) : isPyWs (digitChar n) = false := by
  unfold digitChar
  split_ifs <;> decide

theorem digitVal_digitChar (n : Nat) (h : n < 10) : digitVal (digitChar n) = n := by
  interval_cases n <;> decide

theorem takeD12_natDigits (n : Nat) (hn : n < 100) (c : Char)
    (hc : c.isDigit = false) (rest : List Char) :
    takeD12 (natDigits n ++ c :: rest) = some (n, c :: rest) := by
  unfold natDigits
  by_cases h : n < 10
  · rw [if_pos h]
    show takeD12 (digitChar n :: c :: rest) = some (n, c :: rest)
    simp [takeD12, digitChar_isDigit, hc, digitVal_digitChar n h]
  · rw [if_neg h]
    show takeD12 (digitChar (n / 10) :: digitChar (n % 10) :: c :: rest) = some (n, c :: rest)
    simp [takeD12, digitChar_isDigit, digitVal_digitChar (n / 10) (by omega),
      digitVal_digitChar (n % 10) (by omega)]
    omega

theorem takeD2_twoDigits (n : Nat) (hn : n < 100) (rest : List Char) :
    takeD2 (twoDigits n ++ rest) = some (n, rest) := by
  show takeD2 (digitChar (n / 10) :: digitChar (n % 10) :: rest) = some (n, rest)
  simp [takeD2, digitChar_isDigit, digitVal_digitChar (n / 10) (by omega),
    digitVal_digitChar (n % 10) (by omega)]
  omega

theorem dropWhile_natDigits (n : Nat) (rest : List Char) :
    (natDigits n ++ rest).dropWhile isPyWs = natDigits n ++ rest := by
  unfold natDigits
  by_cases h : n < 10 <;>
    simp [h, List.dropWhile_cons, digitChar_not_ws]

theorem matchDate_exact_aux (mo da yr ho mi : Nat) (tail : List Char)
    (hmo : mo < 100) (hda : da < 100) (hyr : yr < 100) (hho : ho < 100)
    (hmi : mi < 100) :
    matchDate (natDigits mo ++ '/' :: (natDigits da ++ '/' :: (twoDigits yr ++
      (' ' :: '@' :: ' ' :: (natDigits ho ++ ':' :: (twoDigits mi ++ ' ' :: tail)))))) =
      some (mo, da, yr, ho, mi, readAmPm (tail.dropWhile isPyWs)) := by
  have h1 := takeD12_natDigits mo hmo '/' (by decide)
    (natDigits da ++ '/' :: (twoDigits yr ++ (' ' :: '@' :: ' ' ::
      (natDigits ho ++ ':' :: (twoDigits mi ++ ' ' :: tail)))))
  have h2 := takeD12_natDigits da hda '/' (by decide)
    (twoDigits yr ++ (' ' :: '@' :: ' ' :: (natDigits ho ++ ':' ::
      (twoDigits mi ++ ' ' :: tail))))
  have h3 := takeD2_twoDigits yr hyr
    (' ' :: '@' :: ' ' :: (natDigits ho ++ ':' :: (twoDigits mi ++ ' ' :: tail)))
  have h5 := takeD12_natDigits ho hho ':' (by decide)
    (twoDigits mi ++ ' ' :: tail)
  have h6 := takeD2_twoDigits mi hmi (' ' :: tail)
  simp [matchDate, h1, h2, h3, h5, h6, Option.some_bind, expectChar, skipAt,
    List.dropWhile_cons, dropWhile_natDigits, isPyWs]

theorem matchDate_exact (mo da yr ho mi : Nat) (pm : Bool)
    (hmo : mo < 100) (hda : da < 100) (hyr : yr < 100) (hho : ho < 100)
    (hmi : mi < 100) :
    matchDate (exactDateForm mo da yr ho mi pm) = some (mo, da, yr, ho, mi, some pm) := by
  have haux := matchDate_exact_aux mo da yr ho mi
    (if pm then ['P', 'M'] else ['A', 'M']) hmo hda hyr hho hmi
  have hread : readAmPm ((if pm then ['P', 'M'] else ['A', 'M']).dropWhile isPyWs)
      = some pm := by
    cases pm <;> decide
  rw [← hread]
  exact haux

theorem pyStrip_of_ends (a z : Char) (mid : List Char)
    (ha : isPyWs a = false) (hz : isPyWs z = false) :
    pyStrip (a :: (mid ++ [z])) = a :: (mid ++ [z]) := by
  unfold pyStrip
  rw [List.dropWhile_cons]
  simp only [ha, Bool.false_eq_true, if_false]
  rw [show (a :: (mid ++ [z])).reverse = z :: (mid.reverse ++ [a]) by simp]
  rw [List.dropWhile_cons]
  simp only [hz, Bool.false_eq_true, if_false]
  simp

theorem exactDateForm_shape (mo da yr ho mi : Nat) (pm : Bool) (h : mo < 10) :
    exactDateForm mo da yr ho mi pm = digitChar mo ::
      (('/' :: (natDigits da ++ '/' :: (twoDigits yr ++ (' ' :: '@' :: ' ' ::
        (natDigits ho ++ ':' :: (twoDigits mi ++
          [' ', if pm then 'P' else 'A'])))))) ++ ['M']) := by
  cases pm <;> simp [exactDateForm, natDigits, h, List.append_assoc]

theorem exactDateForm_shape2 (mo da yr ho mi : Nat) (pm : Bool) (h : ¬ mo < 10) :
    exactDateForm mo da yr ho mi pm = digitChar (mo / 10) ::
      ((digitChar (mo % 10) :: '/' :: (natDigits da ++ '/' :: (twoDigits yr ++
        (' ' :: '@' :: ' ' :: (natDigits ho ++ ':' :: (twoDigits mi ++
          [' ', if pm then 'P' else 'A'])))))) ++ ['M']) := by
  cases pm <;> simp [exactDateForm, natDigits, h, List.append_assoc]

theorem pyStrip_exactDateForm (mo da yr ho mi : Nat) (pm : Bool) :
    pyStrip (exactDateForm mo da yr ho mi pm) = exactDateForm mo da yr ho mi pm := by
  have hM : isPyWs 'M' = false := by decide
  by_cases h : mo < 10
  · rw [exactDateForm_shape mo da yr ho mi pm h]
    exact pyStrip_of_ends _ _ _ (digitChar_not_ws _) hM
  · rw [exactDateForm_shape2 mo da yr ho mi pm h]
    exact pyStrip_of_ends _ _ _ (digitChar_not_ws _) hM

theorem exactDateForm_ne_nil (mo da yr ho mi : Nat) (pm : Bool) :
    exactDateForm mo da yr ho mi pm ≠ [] := by
  by_cases h : mo < 10
  · rw [exactDateForm_shape mo da yr ho mi pm h]
    exact List.cons_ne_nil _ _
  · rw [exactDateForm_shape2 mo da yr ho mi pm h]
    exact List.cons_ne_nil _ _

theorem daysInMonth_le (y m : Nat) : daysInMonth y m ≤ 31 := by
  unfold daysInMonth
  split_ifs <;> omega

/-- C3 counterexample: the claim says every non-empty string that does not
match the date pattern is returned unchanged, but `parse_date` strips the
string before matching and returns the *stripped* string on a mismatch:
on input `" x"` (non-empty, matching nothing) it returns `"x"`, not
`" x"`. -/
theorem c3_parse_date_counterexample :
    ([' ', 'x'] : List Char) ≠ [] ∧
    Scraper.matchDate (Scraper.pyStrip [' ', 'x']) = none ∧
    Scraper.parse_date [' ', 'x'] = some ['x'] ∧
    Scraper.parse_date [' ', 'x'] ≠ some [' ', 'x'] := by
  decide

/-- C3 amended: (1) for every date string exactly of the form
`M/D/YY @ H:MM AM|PM` denoting a valid calendar date (month 1..12, day
within the month, hour 1..12, minute 0..59), `parse_date` returns the
ISO-8601 timestamp whose year is `2000 + YY`, with the correct
12-hour-to-24-hour conversion (12:xx AM maps to hour 0, 12:xx PM to hour
12, other PM hours get +12, AM hours unchanged); (2) for every non-empty
string that does not match the code's regex (which is laxer than the
displayed pattern: `@` and `AM|PM` are optional and trailing text is
allowed), `parse_date` returns the input stripped of surrounding
whitespace — equal to the original string only when there is no
surrounding whitespace, per the counterexample. -/
theorem c3_parse_date_amended :
    (∀ (mo da yr ho mi : Nat) (pm : Bool),
      1 ≤ mo → mo ≤ 12 → 1 ≤ da → da ≤ Scraper.daysInMonth (2000 + yr) mo →
      yr ≤ 99 → 1 ≤ ho → ho ≤ 12 → mi ≤ 59 →
      Scraper.parse_date (Scraper.exactDateForm mo da yr ho mi pm) =
        some (Scraper.isoFormat (2000 + yr) mo da (Scraper.to24Hour ho pm) mi)) ∧
    (∀ l : List Char, l ≠ [] → Scraper.matchDate (Scraper.pyStrip l) = none →
      Scraper.parse_date l = some (Scraper.pyStrip l)) := by
  constructor
  · intro mo da yr ho mi pm h1 h2 h3 h4 h5 h6 h7 h8
    have hdm := daysInMonth_le (2000 + yr) mo
    have hmatch := matchDate_exact mo da yr ho mi pm (by omega) (by omega)
      (by omega) (by omega) (by omega)
    have hstrip := pyStrip_exactDateForm mo da yr ho mi pm
    have hne := exactDateForm_ne_nil mo da yr ho mi pm
    have hyr100 : yr < 100 := by omega
    cases pm
    · by_cases hho12 : ho = 12
      · subst hho12
        have hv : Scraper.datetimeValid (2000 + yr) mo da 0 mi = true := by
          simp only [Scraper.datetimeValid, decide_eq_true_eq]
          refine ⟨by omega, by omega, by omega, by omega, by omega, h4, by omega, by omega⟩
        simp [Scraper.parse_date, hne, hstrip, hmatch, hyr100, hv, Scraper.to24Hour]
      · have hv : Scraper.datetimeValid (2000 + yr) mo da ho mi = true := by
          simp only [Scraper.datetimeValid, decide_eq_true_eq]
          refine ⟨by omega, by omega, by omega, by omega, by omega, h4, by omega, by omega⟩
        simp [Scraper.parse_date, hne, hstrip, hmatch, hyr100, hv, Scraper.to24Hour, hho12]
    · by_cases hho12 : ho = 12
      · subst hho12
        have hv : Scraper.datetimeValid (2000 + yr) mo da 12 mi = true := by
          simp only [Scraper.datetimeValid, decide_eq_true_eq]
          refine ⟨by omega, by omega, by omega, by omega, by omega, h4, by omega, by omega⟩
        simp [Scraper.parse_date, hne, hstrip, hmatch, hyr100, hv, Scraper.to24Hour]
      · have hv : Scraper.datetimeValid (2000 + yr) mo da (ho + 12) mi = true := by
          simp only [Scraper.datetimeValid, decide_eq_true_eq]
          refine ⟨by omega, by omega, by omega, by omega, by omega, h4, by omega, by omega⟩
        simp [Scraper.parse_date, hne, hstrip, hmatch, hyr100, hv, Scraper.to24Hour, hho12]
  · intro l hl hm
    simp [Scraper.parse_date, hl, hm]

/-- C3 witness: `"3/1/24 @ 2:15 PM"` parses to `2024-03-01T14:15:00`, and
the non-matching `" x"` comes back stripped. -/
theorem c3_parse_date_amended_witness :
    Scraper.parse_date (Scraper.exactDateForm 3 1 24 2 15 true) =
      some (Scraper.isoFormat 2024 3 1 (Scraper.to24Hour 2 true) 15) ∧
    Scraper.parse_date [' ', 'x'] = some (Scraper.pyStrip [' ', 'x']) :=
  ⟨c3_parse_date_amended.1 3 1 24 2 15 true (by decide) (by decide) (by decide)
    (by decide) (by decide) (by decide) (by decide) (by decide),
   c3_parse_date_amended.2 [' ', 'x'] (by decide) (by decide)⟩
